import Mathlib

/-!
Verification of the security pass `verify_secure_runner`
(`src/vm/security.rs`) of a segmented-memory virtual machine.

The Rust source is shallowly embedded: addresses become a two-field
structure over `Int`/`Nat`, the segmented memory store becomes lists of
lists of optional cells, `usize` values become `Nat` (with a separate
wrapped-arithmetic model where overflow questions arise), fallible code
returns `Except`, and the `&mut VirtualMachine` parameter is threaded as
explicit state.
-/

namespace CairoRs

/-- Address of a memory cell: `Relocatable { segment_index: isize, offset: usize }`.
A negative `segment_index` marks a temporary (not yet relocated) address. -/
structure Relocatable where
  segment_index : Int
  offset : Nat
deriving DecidableEq, Repr

/-- A memory cell value: either an address or an opaque field element
(`MaybeRelocatable` in the source; the felt is opaque to the verifier and
modelled as a `Nat`). -/
inductive MaybeRelocatable where
  | relocatableValue (addr : Relocatable)
  | int (value : Nat)
deriving DecidableEq, Repr

/-- Runner-level errors; only `NoProgBase` is relevant to this pass. -/
inductive RunnerError where
  | NoProgBase
deriving DecidableEq, Repr

/-- The error type returned by `verify_secure_runner`
(`VirtualMachineError` in the source, restricted to the variants this
pass can produce; builtin self-audit failures are carried opaquely). -/
inductive VirtualMachineError where
  | RunnerError (e : RunnerError)
  | OutOfBoundsBuiltinSegmentAccess
  | OutOfBoundsProgramSegmentAccess
  | InvalidMemoryValueTemporaryAddress (addr : Relocatable)
  | BuiltinSecurityError (code : Nat)
deriving DecidableEq, Repr

/-- The segmented memory store: `data` holds the real segments (indexed by
non-negative segment index), `temp_data` the temporary segments. Each
segment is a list of optional cells (`None` is a hole). -/
structure Memory where
  data : List (List (Option MaybeRelocatable))
  temp_data : List (List (Option MaybeRelocatable))

/-- Modelled from the spec: the Builtin Capability interface (§4.3).
Each registered builtin exposes `run_security_checks(memory)`, a
builtin-specific self-audit whose internal algorithm is out of scope;
the builtin runners themselves are not under `src/`, so a builtin is
modelled as the abstract audit function it must expose. -/
structure BuiltinRunner where
  run_security_checks : Memory → Except VirtualMachineError Unit

/-- The virtual machine state read by the pass: the memory store and the
ordered collection of registered builtin runners (name, capability). -/
structure VirtualMachine where
  memory : Memory
  builtin_runners : List (String × BuiltinRunner)

/-- The loaded program; the pass only reads `data.len()` (the program length). -/
structure Program where
  data : List MaybeRelocatable

/-- The runner configuration read by the pass. `builtin_segments_info` is
modelled from the spec: `builtin_bounds()` (§6) yields one
`(segment_index, stop_ptr)` pair per registered builtin, in registration
order (the source's `CairoRunner::get_builtin_segments_info` is not under
`src/`). -/
structure CairoRunner where
  program_base : Option Relocatable
  program : Program
  builtin_segments_info : List (Nat × Nat)

/-- Modelled from the spec: `builtin_bounds()` of §6, the ordered sequence
of `(segment_index, stop_ptr)` pairs the configuration supplies, total as
specified there. -/
def CairoRunner.get_builtin_segments_info (runner : CairoRunner) : List (Nat × Nat) :=
  runner.builtin_segments_info

/-- Rust `isize::to_usize()`: succeeds exactly on non-negative values. -/
def to_usize (i : Int) : Option Nat :=
  if 0 ≤ i then some i.toNat else none

/-- The `>=` test on `Option<usize>` as derived in Rust: `None` is below
every `Some` value. Only the orientations used by the source are modelled. -/
def option_ge : Option Nat → Option Nat → Bool
  | none, none => true
  | none, some _ => false
  | some _, none => true
  | some a, some b => b ≤ a

/-- Rust `usize` width model for the `+ 1` arithmetic of the bound tests. -/
def USIZE_MOD : Nat := 2 ^ 64

/-- Wrapping `usize` addition (release-mode Rust semantics). -/
def usize_add_wrap (a b : Nat) : Nat := (a + b) % USIZE_MOD

/-- The builtin bound loop of `verify_secure_runner` (lines 33–39): for each
`(index, stop_ptr)` fetch `vm.memory.data.get(index).map(len)` and fail with
`OutOfBoundsBuiltinSegmentAccess` when `current_size >= Some(stop_ptr + 1)`;
the `stop_ptr + 1` is `usize` addition, which wraps at `usize::MAX` in
release-mode Rust. -/
def builtin_bounds_check (data : List (List (Option MaybeRelocatable))) :
    List (Nat × Nat) → Except VirtualMachineError Unit
  | [] => Except.ok ()
  | (index, stop_ptr) :: rest =>
    let current_size := (data.get? index).map List.length
    if option_ge current_size (some (usize_add_wrap stop_ptr 1)) then
      Except.error VirtualMachineError.OutOfBoundsBuiltinSegmentAccess
    else
      builtin_bounds_check data rest

/-- The temporary-address scan of lines 58–67: walk the flattened real
cells in order and return the first address with a negative segment index. -/
def find_temporary_address : List (Option MaybeRelocatable) → Option Relocatable
  | [] => none
  | cell :: rest =>
    match cell with
    | some (MaybeRelocatable.relocatableValue addr) =>
      if addr.segment_index < 0 then some addr else find_temporary_address rest
    | _ => find_temporary_address rest

/-- The self-audit loop of lines 69–71: run each registered builtin's
`run_security_checks` in order, propagating the first failure. -/
def run_security_checks_loop (mem : Memory) :
    List (String × BuiltinRunner) → Except VirtualMachineError Unit
  | [] => Except.ok ()
  | (_, builtin) :: rest =>
    match builtin.run_security_checks mem with
    | Except.error e => Except.error e
    | Except.ok _ => run_security_checks_loop mem rest

/-- `verify_secure_runner` (`src/vm/security.rs`, lines 23–74). The
`&mut VirtualMachine` parameter is threaded as explicit state: the result
pairs the verdict with the virtual machine after the call. The body never
writes to `vm`, so the returned state is the input state. -/
def verify_secure_runner (runner : CairoRunner) (verify_builtins : Bool)
    (vm : VirtualMachine) : Except VirtualMachineError Unit × VirtualMachine :=
  let builtins_segment_info :=
    if verify_builtins then runner.get_builtin_segments_info else []
  let result :=
    match builtin_bounds_check vm.memory.data builtins_segment_info with
    | Except.error e => Except.error e
    | Except.ok _ =>
      match runner.program_base.bind (fun rel => to_usize rel.segment_index) with
      | none => Except.error (VirtualMachineError.RunnerError RunnerError.NoProgBase)
      | some program_segment_index =>
        let program_segment_size :=
          (vm.memory.data.get? program_segment_index).map List.length
        if option_ge program_segment_size (some (runner.program.data.length + 1)) then
          Except.error VirtualMachineError.OutOfBoundsProgramSegmentAccess
        else
          match
            (if vm.memory.temp_data.isEmpty then none
             else find_temporary_address vm.memory.data.flatten) with
          | some addr =>
            Except.error (VirtualMachineError.InvalidMemoryValueTemporaryAddress addr)
          | none => run_security_checks_loop vm.memory vm.builtin_runners
  (result, vm)

/-- Whether a cell holds a temporary (negative segment index) address —
the test of the match guard on line 60. -/
def is_temporary_cell : Option MaybeRelocatable → Bool
  | some (MaybeRelocatable.relocatableValue addr) => addr.segment_index < 0
  | _ => false

/-- The cell of real memory at `(segment_index, offset)`, when both the
segment and the slot exist. -/
def cell_value (data : List (List (Option MaybeRelocatable))) (s o : Nat) :
    Option (Option MaybeRelocatable) :=
  (data.get? s).bind (fun seg => seg.get? o)

theorem option_ge_none_some (b : Nat) : option_ge none (some b) = false := rfl

theorem option_ge_some_some (a b : Nat) : option_ge (some a) (some b) = decide (b ≤ a) := rfl

theorem builtin_bounds_check_cons (data : List (List (Option MaybeRelocatable)))
    (index stop_ptr : Nat) (rest : List (Nat × Nat)) :
    builtin_bounds_check data ((index, stop_ptr) :: rest) =
      if option_ge ((data.get? index).map List.length)
          (some (usize_add_wrap stop_ptr 1)) then
        Except.error VirtualMachineError.OutOfBoundsBuiltinSegmentAccess
      else
        builtin_bounds_check data rest := rfl

theorem find_cons_reloc (addr : Relocatable) (rest : List (Option MaybeRelocatable)) :
    find_temporary_address (some (MaybeRelocatable.relocatableValue addr) :: rest) =
      if addr.segment_index < 0 then some addr else find_temporary_address rest := rfl

theorem find_cons_int (v : Nat) (rest : List (Option MaybeRelocatable)) :
    find_temporary_address (some (MaybeRelocatable.int v) :: rest) =
      find_temporary_address rest := rfl

theorem find_cons_hole (rest : List (Option MaybeRelocatable)) :
    find_temporary_address (none :: rest) = find_temporary_address rest := rfl

theorem builtin_bounds_check_ok (data : List (List (Option MaybeRelocatable))) :
    ∀ info : List (Nat × Nat),
      (∀ p ∈ info, p.2 < USIZE_MOD - 1) →
      (∀ p ∈ info, ∀ sz, (data.get? p.1).map List.length = some sz → sz ≤ p.2) →
      builtin_bounds_check data info = Except.ok ()
  | [], _, _ => rfl
  | (index, stop_ptr) :: rest, hrep, h => by
    have hrest := builtin_bounds_check_ok data rest
      (fun p hp => hrep p (List.mem_cons_of_mem _ hp))
      (fun p hp => h p (List.mem_cons_of_mem _ hp))
    have hpos : 0 < USIZE_MOD := by norm_num [USIZE_MOD]
    have hsp : stop_ptr < USIZE_MOD - 1 := hrep (index, stop_ptr) (List.mem_cons_self _ _)
    have hwrap : usize_add_wrap stop_ptr 1 = stop_ptr + 1 :=
      Nat.mod_eq_of_lt (by omega)
    rw [builtin_bounds_check_cons, hwrap]
    rcases hsz : (data.get? index).map List.length with _ | sz
    · rw [option_ge_none_some]
      simpa using hrest
    · have hle : sz ≤ stop_ptr := h (index, stop_ptr) (List.mem_cons_self _ _) sz hsz
      rw [option_ge_some_some]
      rw [if_neg (by simp only [decide_eq_true_eq]; omega)]
      exact hrest

theorem builtin_bounds_check_error (data : List (List (Option MaybeRelocatable))) :
    ∀ info : List (Nat × Nat), ∀ index stop_ptr sz : Nat,
      (index, stop_ptr) ∈ info →
      (data.get? index).map List.length = some sz →
      stop_ptr < sz →
      builtin_bounds_check data info =
        Except.error VirtualMachineError.OutOfBoundsBuiltinSegmentAccess
  | [], _, _, _, hmem, _, _ => absurd hmem (List.not_mem_nil _)
  | (i, sp) :: rest, index, stop_ptr, sz, hmem, hsz, hlt => by
    rw [builtin_bounds_check_cons]
    by_cases hg : option_ge ((data.get? i).map List.length)
        (some (usize_add_wrap sp 1)) = true
    · rw [if_pos hg]
    · rw [if_neg hg]
      rcases List.mem_cons.mp hmem with heq | hmem'
      · exfalso
        have hi : index = i := congrArg Prod.fst heq
        have hsp : stop_ptr = sp := congrArg Prod.snd heq
        subst hi; subst hsp
        have hw : usize_add_wrap stop_ptr 1 ≤ stop_ptr + 1 :=
          Nat.mod_le (stop_ptr + 1) USIZE_MOD
        rw [hsz, option_ge_some_some] at hg
        simp only [decide_eq_true_eq] at hg
        omega
      · exact builtin_bounds_check_error data rest index stop_ptr sz hmem' hsz hlt

theorem find_temporary_address_none :
    ∀ cells : List (Option MaybeRelocatable),
      (∀ o c, cells.get? o = some c → is_temporary_cell c = false) →
      find_temporary_address cells = none
  | [], _ => rfl
  | cell :: rest, h => by
    have hrest := find_temporary_address_none rest (fun o c hc => h (o + 1) c hc)
    have hhead : is_temporary_cell cell = false := h 0 cell rfl
    rcases cell with _ | mv
    · rw [find_cons_hole]; exact hrest
    · rcases mv with addr | v
      · simp only [is_temporary_cell, decide_eq_false_iff_not] at hhead
        rw [find_cons_reloc, if_neg hhead]
        exact hrest
      · rw [find_cons_int]; exact hrest

theorem find_temporary_address_append_none :
    ∀ (a b : List (Option MaybeRelocatable)), find_temporary_address a = none →
      find_temporary_address (a ++ b) = find_temporary_address b
  | [], b, _ => by rw [List.nil_append]
  | cell :: rest, b, ha => by
    rw [List.cons_append]
    rcases cell with _ | mv
    · rw [find_cons_hole] at ha ⊢
      exact find_temporary_address_append_none rest b ha
    · rcases mv with addr | v
      · rw [find_cons_reloc] at ha ⊢
        by_cases hneg : addr.segment_index < 0
        · rw [if_pos hneg] at ha; exact absurd ha (by simp)
        · rw [if_neg hneg] at ha ⊢
          exact find_temporary_address_append_none rest b ha
      · rw [find_cons_int] at ha ⊢
        exact find_temporary_address_append_none rest b ha

theorem find_temporary_address_append_some :
    ∀ (a b : List (Option MaybeRelocatable)) (addr : Relocatable),
      find_temporary_address a = some addr →
      find_temporary_address (a ++ b) = some addr
  | [], _, _, ha => absurd ha (by simp [find_temporary_address])
  | cell :: rest, b, addr, ha => by
    rw [List.cons_append]
    rcases cell with _ | mv
    · rw [find_cons_hole] at ha ⊢
      exact find_temporary_address_append_some rest b addr ha
    · rcases mv with a0 | v
      · rw [find_cons_reloc] at ha ⊢
        by_cases hneg : a0.segment_index < 0
        · rw [if_pos hneg] at ha ⊢; exact ha
        · rw [if_neg hneg] at ha ⊢
          exact find_temporary_address_append_some rest b addr ha
      · rw [find_cons_int] at ha ⊢
        exact find_temporary_address_append_some rest b addr ha

theorem cell_value_cons_zero (seg : List (Option MaybeRelocatable))
    (rest : List (List (Option MaybeRelocatable))) (o : Nat) :
    cell_value (seg :: rest) 0 o = seg.get? o := rfl

theorem cell_value_cons_succ (seg : List (Option MaybeRelocatable))
    (rest : List (List (Option MaybeRelocatable))) (s o : Nat) :
    cell_value (seg :: rest) (s + 1) o = cell_value rest s o := rfl

theorem find_temporary_address_of_first :
    ∀ (seg : List (Option MaybeRelocatable)) (o : Nat) (addr : Relocatable),
      seg.get? o = some (some (MaybeRelocatable.relocatableValue addr)) →
      addr.segment_index < 0 →
      (∀ o' c, o' < o → seg.get? o' = some c → is_temporary_cell c = false) →
      find_temporary_address seg = some addr
  | [], o, _, hget, _, _ => by cases o <;> simp [List.get?] at hget
  | cell :: rest, 0, addr, hget, hneg, _ => by
    have hcell : cell = some (MaybeRelocatable.relocatableValue addr) := by
      simpa [List.get?] using hget
    subst hcell
    rw [find_cons_reloc, if_pos hneg]
  | cell :: rest, o + 1, addr, hget, hneg, hprior => by
    have hrest := find_temporary_address_of_first rest o addr hget hneg
      (fun o' c ho' hc => hprior (o' + 1) c (by omega) hc)
    have hhead : is_temporary_cell cell = false := hprior 0 cell (by omega) rfl
    rcases cell with _ | mv
    · rw [find_cons_hole]; exact hrest
    · rcases mv with a0 | v
      · simp only [is_temporary_cell, decide_eq_false_iff_not] at hhead
        rw [find_cons_reloc, if_neg hhead]
        exact hrest
      · rw [find_cons_int]; exact hrest

theorem flatten_find_none :
    ∀ data : List (List (Option MaybeRelocatable)),
      (∀ s o c, cell_value data s o = some c → is_temporary_cell c = false) →
      find_temporary_address data.flatten = none
  | [], _ => rfl
  | seg :: rest, h => by
    have hseg : find_temporary_address seg = none :=
      find_temporary_address_none seg (fun o c hc => h 0 o c hc)
    rw [List.flatten_cons, find_temporary_address_append_none seg rest.flatten hseg]
    exact flatten_find_none rest (fun s o c hc => h (s + 1) o c hc)

theorem flatten_find_first :
    ∀ (data : List (List (Option MaybeRelocatable))) (s o : Nat) (addr : Relocatable),
      cell_value data s o = some (some (MaybeRelocatable.relocatableValue addr)) →
      addr.segment_index < 0 →
      (∀ s' o' c, (s' < s ∨ (s' = s ∧ o' < o)) → cell_value data s' o' = some c →
        is_temporary_cell c = false) →
      find_temporary_address data.flatten = some addr
  | [], s, o, _, hcell, _, _ => by
    have hnone : cell_value [] s o = none := by cases s <;> rfl
    rw [hnone] at hcell
    exact Option.noConfusion hcell
  | seg :: rest, 0, o, addr, hcell, hneg, hfirst => by
    have hseg : find_temporary_address seg = some addr :=
      find_temporary_address_of_first seg o addr hcell hneg
        (fun o' c ho' hc => hfirst 0 o' c (Or.inr ⟨rfl, ho'⟩) hc)
    rw [List.flatten_cons]
    exact find_temporary_address_append_some seg rest.flatten addr hseg
  | seg :: rest, s + 1, o, addr, hcell, hneg, hfirst => by
    have hseg : find_temporary_address seg = none :=
      find_temporary_address_none seg
        (fun o' c hc => hfirst 0 o' c (Or.inl (Nat.succ_pos s)) hc)
    rw [List.flatten_cons, find_temporary_address_append_none seg rest.flatten hseg]
    exact flatten_find_first rest s o addr hcell hneg
      (fun s' o' c hlt hc => hfirst (s' + 1) o' c (by omega) hc)

theorem run_security_checks_loop_ok (mem : Memory) :
    ∀ runners : List (String × BuiltinRunner),
      (∀ p ∈ runners, p.2.run_security_checks mem = Except.ok ()) →
      run_security_checks_loop mem runners = Except.ok ()
  | [], _ => rfl
  | (name, b) :: rest, h => by
    have hb : b.run_security_checks mem = Except.ok () :=
      h (name, b) (List.mem_cons_self _ _)
    show (match b.run_security_checks mem with
      | Except.error e => Except.error e
      | Except.ok _ => run_security_checks_loop mem rest) = Except.ok ()
    rw [hb]
    exact run_security_checks_loop_ok mem rest
      (fun p hp => h p (List.mem_cons_of_mem _ hp))

theorem verify_secure_runner_fst (runner : CairoRunner) (verify_builtins : Bool)
    (vm : VirtualMachine) :
    (verify_secure_runner runner verify_builtins vm).fst =
      match builtin_bounds_check vm.memory.data
          (if verify_builtins then runner.get_builtin_segments_info else []) with
      | Except.error e => Except.error e
      | Except.ok _ =>
        match runner.program_base.bind (fun rel => to_usize rel.segment_index) with
        | none => Except.error (VirtualMachineError.RunnerError RunnerError.NoProgBase)
        | some program_segment_index =>
          if option_ge ((vm.memory.data.get? program_segment_index).map List.length)
              (some (runner.program.data.length + 1)) then
            Except.error VirtualMachineError.OutOfBoundsProgramSegmentAccess
          else
            match (if vm.memory.temp_data.isEmpty then none
                else find_temporary_address vm.memory.data.flatten) with
            | some addr =>
              Except.error (VirtualMachineError.InvalidMemoryValueTemporaryAddress addr)
            | none => run_security_checks_loop vm.memory vm.builtin_runners := rfl

/-- C8: `verify_secure_runner` has no side effects on the memory store or the
supplied configuration: the virtual machine state threaded through the call
(real and temporary segment data, builtin runners) is returned exactly as it
was passed in, whatever the verdict, and the runner configuration is consumed
immutably. -/
theorem verify_secure_runner_no_side_effects (runner : CairoRunner)
    (verify_builtins : Bool) (vm : VirtualMachine) :
    (verify_secure_runner runner verify_builtins vm).snd = vm := rfl

/-- C7: an absent segment size compares strictly below any present bound
(`option_ge none (some bound) = false` for every bound), so whenever the
segment lookup returns nothing, the builtin bound comparison and the program
bound comparison are both false and the builtin bound check passes. -/
theorem absent_segment_size_passes_bounds
    (data : List (List (Option MaybeRelocatable)))
    (index stop_ptr program_length : Nat)
    (h : data.get? index = none) :
    (∀ bound : Nat, option_ge none (some bound) = false) ∧
    option_ge ((data.get? index).map List.length) (some (stop_ptr + 1)) = false ∧
    option_ge ((data.get? index).map List.length) (some (program_length + 1)) = false ∧
    builtin_bounds_check data [(index, stop_ptr)] = Except.ok () := by
  refine ⟨fun bound => rfl, ?_, ?_, ?_⟩
  · rw [h]; rfl
  · rw [h]; rfl
  · rw [builtin_bounds_check_cons, h]
    rfl

/-- Witness for C7: the empty store has no segment 0, and the checks pass. -/
theorem absent_segment_size_passes_bounds_witness :
    (∀ bound : Nat, option_ge none (some bound) = false) ∧
    option_ge ((([] : List (List (Option MaybeRelocatable))).get? 0).map List.length)
      (some (0 + 1)) = false ∧
    option_ge ((([] : List (List (Option MaybeRelocatable))).get? 0).map List.length)
      (some (0 + 1)) = false ∧
    builtin_bounds_check [] [(0, 0)] = Except.ok () :=
  absent_segment_size_passes_bounds [] 0 0 0 rfl

/-- C10: with `usize` modelled as arithmetic modulo `2 ^ 64`, for every stop
pointer strictly below the maximum `usize` value the source's test
`size >= stop_ptr + 1` is exactly the specified `size > stop_ptr` and the
`+ 1` does not wrap; at `stop_ptr = usize::MAX` the addition wraps to zero
and the equivalence breaks. The same arithmetic covers `program_length + 1`. -/
theorem bound_test_plus_one_equivalence :
    (∀ stop_ptr size : Nat, stop_ptr < USIZE_MOD - 1 → size < USIZE_MOD →
      usize_add_wrap stop_ptr 1 = stop_ptr + 1 ∧
      (option_ge (some size) (some (usize_add_wrap stop_ptr 1)) = true ↔ stop_ptr < size)) ∧
    usize_add_wrap (USIZE_MOD - 1) 1 = 0 ∧
    ¬ (option_ge (some 0) (some (usize_add_wrap (USIZE_MOD - 1) 1)) = true ↔
        USIZE_MOD - 1 < 0) := by
  have h0 : usize_add_wrap (USIZE_MOD - 1) 1 = 0 := by
    have hsum : USIZE_MOD - 1 + 1 = USIZE_MOD := by norm_num [USIZE_MOD]
    unfold usize_add_wrap
    rw [hsum, Nat.mod_self]
  refine ⟨?_, h0, ?_⟩
  · intro stop_ptr size hsp hs
    have hmod : 0 < USIZE_MOD := by norm_num [USIZE_MOD]
    have hwrap : usize_add_wrap stop_ptr 1 = stop_ptr + 1 := by
      unfold usize_add_wrap
      exact Nat.mod_eq_of_lt (by omega)
    refine ⟨hwrap, ?_⟩
    rw [hwrap, option_ge_some_some]
    simp only [decide_eq_true_eq]
    omega
  · intro hiff
    rw [h0, option_ge_some_some] at hiff
    have := hiff.mp (by simp)
    omega

/-- Witness for C10 at stop pointer 3 and size 5. -/
theorem bound_test_plus_one_equivalence_witness :
    usize_add_wrap 3 1 = 3 + 1 ∧
    (option_ge (some 5) (some (usize_add_wrap 3 1)) = true ↔ 3 < 5) :=
  bound_test_plus_one_equivalence.1 3 5 (by norm_num [USIZE_MOD])
    (by norm_num [USIZE_MOD])

/-- C9: `NoProgBase` is not raised only when `program_base` is unset: when it
is present but its segment index is negative (not representable as `usize`),
`verify_secure_runner` fails with the same error, provided the earlier builtin
bound step did not already fail. -/
theorem negative_program_base_raises_missing_program_base
    (runner : CairoRunner) (verify_builtins : Bool) (vm : VirtualMachine)
    (rel : Relocatable)
    (hbase : runner.program_base = some rel)
    (hneg : rel.segment_index < 0)
    (hb : verify_builtins = false ∨
      builtin_bounds_check vm.memory.data runner.builtin_segments_info =
        Except.ok ()) :
    (verify_secure_runner runner verify_builtins vm).fst =
      Except.error (VirtualMachineError.RunnerError RunnerError.NoProgBase) := by
  have hb' : builtin_bounds_check vm.memory.data
      (if verify_builtins then runner.get_builtin_segments_info else []) =
        Except.ok () := by
    rcases hb with hfalse | hok
    · rw [hfalse]; rfl
    · cases verify_builtins
      · rfl
      · simpa [CairoRunner.get_builtin_segments_info] using hok
  have hto : to_usize rel.segment_index = none := by
    unfold to_usize
    rw [if_neg (by omega)]
  simp only [verify_secure_runner_fst, hb', hbase, Option.some_bind, hto]

/-- Concrete configuration for the C9 witness: a present program base with a
negative segment index. -/
def runner_c9 : CairoRunner :=
  { program_base := some { segment_index := -1, offset := 0 }
  , program := { data := [] }
  , builtin_segments_info := [] }

/-- Concrete machine for the C9 witness. -/
def vm_c9 : VirtualMachine :=
  { memory := { data := [], temp_data := [] }, builtin_runners := [] }

/-- Witness for C9 at a program base with segment index `-1`. -/
theorem negative_program_base_witness :
    (verify_secure_runner runner_c9 false vm_c9).fst =
      Except.error (VirtualMachineError.RunnerError RunnerError.NoProgBase) :=
  negative_program_base_raises_missing_program_base runner_c9 false vm_c9
    { segment_index := -1, offset := 0 } rfl (by norm_num) (Or.inl rfl)

/-- Concrete configuration for the C2 counterexample: no program base, one
builtin bound `(segment 0, stop pointer 0)`. -/
def runner_c2 : CairoRunner :=
  { program_base := none
  , program := { data := [] }
  , builtin_segments_info := [(0, 0)] }

/-- Concrete machine for the C2 counterexample: segment 0 has one written
cell, so its recorded size 1 exceeds the stop pointer 0. -/
def vm_c2 : VirtualMachine :=
  { memory := { data := [[some (MaybeRelocatable.int 5)]], temp_data := [] }
  , builtin_runners := [] }

/-- C2 counterexample: with `program_base` unset but a builtin whose recorded
segment size (1) exceeds its stop pointer (0) and the bound flag on, the
verdict is `OutOfBoundsBuiltinSegmentAccess`, not `MissingProgramBase`: the
builtin bound step runs before the program base is resolved. -/
theorem missing_program_base_not_unconditional :
    (verify_secure_runner runner_c2 true vm_c2).fst =
      Except.error VirtualMachineError.OutOfBoundsBuiltinSegmentAccess ∧
    (verify_secure_runner runner_c2 true vm_c2).fst ≠
      Except.error (VirtualMachineError.RunnerError RunnerError.NoProgBase) := by
  constructor
  · rfl
  · intro h
    rw [show (verify_secure_runner runner_c2 true vm_c2).fst =
      Except.error VirtualMachineError.OutOfBoundsBuiltinSegmentAccess from rfl] at h
    exact VirtualMachineError.noConfusion (Except.error.inj h)

/-- C2 (amended): if `program_base` is unset and the builtin bound step does
not fail (the flag is false, or the builtin bound check over the registered
bounds returns success), `verify_secure_runner` fails with
`MissingProgramBase`, regardless of the memory contents. -/
theorem missing_program_base_when_bounds_pass
    (runner : CairoRunner) (verify_builtins : Bool) (vm : VirtualMachine)
    (hbase : runner.program_base = none)
    (hb : verify_builtins = false ∨
      builtin_bounds_check vm.memory.data runner.builtin_segments_info =
        Except.ok ()) :
    (verify_secure_runner runner verify_builtins vm).fst =
      Except.error (VirtualMachineError.RunnerError RunnerError.NoProgBase) := by
  have hb' : builtin_bounds_check vm.memory.data
      (if verify_builtins then runner.get_builtin_segments_info else []) =
        Except.ok () := by
    rcases hb with hfalse | hok
    · rw [hfalse]; rfl
    · cases verify_builtins
      · rfl
      · simpa [CairoRunner.get_builtin_segments_info] using hok
  simp only [verify_secure_runner_fst, hb', hbase, Option.none_bind]

/-- Concrete configuration for the C2 witness: no program base, no builtins. -/
def runner_c2w : CairoRunner :=
  { program_base := none, program := { data := [] }, builtin_segments_info := [] }

/-- Concrete machine for the C2 witness. -/
def vm_c2w : VirtualMachine :=
  { memory := { data := [], temp_data := [] }, builtin_runners := [] }

/-- Witness for the amended C2 with the flag off. -/
theorem missing_program_base_when_bounds_pass_witness :
    (verify_secure_runner runner_c2w false vm_c2w).fst =
      Except.error (VirtualMachineError.RunnerError RunnerError.NoProgBase) :=
  missing_program_base_when_bounds_pass runner_c2w false vm_c2w rfl (Or.inl rfl)

/-- C4: with the bound flag on, any registered builtin whose recorded segment
size exceeds its stop pointer makes `verify_secure_runner` fail with
`OutOfBoundsBuiltinSegmentAccess`, whatever the rest of the configuration and
memory hold — in particular no later verification step runs or changes the
verdict. -/
theorem builtin_out_of_bounds_fails
    (runner : CairoRunner) (vm : VirtualMachine) (index stop_ptr sz : Nat)
    (hmem : (index, stop_ptr) ∈ runner.builtin_segments_info)
    (hsz : (vm.memory.data.get? index).map List.length = some sz)
    (hlt : stop_ptr < sz) :
    (verify_secure_runner runner true vm).fst =
      Except.error VirtualMachineError.OutOfBoundsBuiltinSegmentAccess := by
  have hb : builtin_bounds_check vm.memory.data
      (if true then runner.get_builtin_segments_info else []) =
        Except.error VirtualMachineError.OutOfBoundsBuiltinSegmentAccess := by
    show builtin_bounds_check vm.memory.data runner.get_builtin_segments_info = _
    exact builtin_bounds_check_error vm.memory.data runner.builtin_segments_info
      index stop_ptr sz hmem hsz hlt
  rw [verify_secure_runner_fst, hb]

/-- Concrete configuration for the C4 witness: one builtin bound
`(segment 0, stop pointer 0)` and, deliberately, no program base. -/
def runner_c4 : CairoRunner :=
  { program_base := none
  , program := { data := [] }
  , builtin_segments_info := [(0, 0)] }

/-- Concrete machine for the C4 witness: segment 0 holds one written cell. -/
def vm_c4 : VirtualMachine :=
  { memory := { data := [[some (MaybeRelocatable.int 7)]], temp_data := [] }
  , builtin_runners := [] }

/-- Witness for C4: recorded size 1 exceeds stop pointer 0 and the verdict is
the builtin bound error even though the program base is missing. -/
theorem builtin_out_of_bounds_fails_witness :
    (verify_secure_runner runner_c4 true vm_c4).fst =
      Except.error VirtualMachineError.OutOfBoundsBuiltinSegmentAccess :=
  builtin_out_of_bounds_fails runner_c4 vm_c4 0 0 1 (by decide) rfl (by omega)

/-- Concrete configuration for the C1 counterexample: program base at
segment 0, one-word program, one builtin bound with stop pointer
`usize::MAX`. -/
def runner_c1x : CairoRunner :=
  { program_base := some { segment_index := 0, offset := 0 }
  , program := { data := [MaybeRelocatable.int 0] }
  , builtin_segments_info := [(1, USIZE_MOD - 1)] }

/-- Concrete machine for the C1 counterexample: both segments hold one cell,
no temporary segment, no registered builtin runner (so every self-audit
succeeds vacuously). -/
def vm_c1x : VirtualMachine :=
  { memory :=
    { data := [[some (MaybeRelocatable.int 3)], [some (MaybeRelocatable.int 4)]]
    , temp_data := [] }
  , builtin_runners := [] }

/-- C1 counterexample: every hypothesis of the claim holds — the builtin's
recorded segment size 1 is at most its stop pointer `usize::MAX`, the program
bound, temporary-address and self-audit checks pass — yet the verdict is the
builtin bound error rather than success: the source's `stop_ptr + 1` wraps to
0 at `usize::MAX` and `Some(1) >= Some(0)` fires. -/
theorem verify_secure_runner_success_counterexample :
    (vm_c1x.memory.data.get? 1).map List.length = some 1 ∧
    1 ≤ USIZE_MOD - 1 ∧
    (verify_secure_runner runner_c1x true vm_c1x).fst =
      Except.error VirtualMachineError.OutOfBoundsBuiltinSegmentAccess := by
  refine ⟨rfl, by norm_num [USIZE_MOD], ?_⟩
  rfl

/-- C1 (amended): with the program base set (to a representable real segment
index), every builtin's recorded segment size at most its stop pointer and
every stop pointer strictly below `usize::MAX` (or the bound flag off), the
program segment's recorded size at most the program length, no temporary leak
possible (no temporary segment allocated, or no real cell holding a
negative-segment-index address), and every builtin self-audit succeeding,
`verify_secure_runner` returns success. -/
theorem verify_secure_runner_success
    (runner : CairoRunner) (verify_builtins : Bool) (vm : VirtualMachine)
    (rel : Relocatable) (pidx : Nat)
    (hbase : runner.program_base = some rel)
    (hidx : to_usize rel.segment_index = some pidx)
    (hrep : verify_builtins = true →
      ∀ p ∈ runner.builtin_segments_info, p.2 < USIZE_MOD - 1)
    (hbounds : verify_builtins = true →
      ∀ p ∈ runner.builtin_segments_info, ∀ sz,
        (vm.memory.data.get? p.1).map List.length = some sz → sz ≤ p.2)
    (hprog : ∀ sz, (vm.memory.data.get? pidx).map List.length = some sz →
      sz ≤ runner.program.data.length)
    (htemp : vm.memory.temp_data = [] ∨
      ∀ s o c, cell_value vm.memory.data s o = some c → is_temporary_cell c = false)
    (haudit : ∀ p ∈ vm.builtin_runners,
      p.2.run_security_checks vm.memory = Except.ok ()) :
    (verify_secure_runner runner verify_builtins vm).fst = Except.ok () := by
  have hb' : builtin_bounds_check vm.memory.data
      (if verify_builtins then runner.get_builtin_segments_info else []) =
        Except.ok () := by
    cases verify_builtins
    · rfl
    · exact builtin_bounds_check_ok _ _ (hrep rfl) (hbounds rfl)
  have hpsize : option_ge ((vm.memory.data.get? pidx).map List.length)
      (some (runner.program.data.length + 1)) = false := by
    rcases hsz : (vm.memory.data.get? pidx).map List.length with _ | sz
    · rfl
    · rw [option_ge_some_some]
      have := hprog sz hsz
      simp only [decide_eq_false_iff_not]
      omega
  have htc : (if vm.memory.temp_data.isEmpty then none
      else find_temporary_address vm.memory.data.flatten) =
        (none : Option Relocatable) := by
    rcases htemp with hempty | hclean
    · rw [hempty]; rfl
    · by_cases hemp : vm.memory.temp_data.isEmpty
      · rw [if_pos hemp]
      · rw [if_neg hemp]
        exact flatten_find_none vm.memory.data hclean
  simp only [verify_secure_runner_fst, hb', hbase, Option.some_bind, hidx, hpsize,
    Bool.false_eq_true, if_false, htc]
  exact run_security_checks_loop_ok vm.memory vm.builtin_runners haudit

/-- Concrete configuration for the C1 witness: program base at segment 0,
program of one word, one builtin bound `(segment 1, stop pointer 1)`. -/
def runner_c1 : CairoRunner :=
  { program_base := some { segment_index := 0, offset := 0 }
  , program := { data := [MaybeRelocatable.int 0] }
  , builtin_segments_info := [(1, 1)] }

/-- Concrete machine for the C1 witness: both segments hold one cell, no
temporary segment, one builtin whose self-audit succeeds. -/
def vm_c1 : VirtualMachine :=
  { memory :=
    { data := [[some (MaybeRelocatable.int 3)], [some (MaybeRelocatable.int 4)]]
    , temp_data := [] }
  , builtin_runners :=
      [("range_check", { run_security_checks := fun _ => Except.ok () })] }

/-- Witness for C1: all checks pass on the concrete configuration and the
verdict is success. -/
theorem verify_secure_runner_success_witness :
    (verify_secure_runner runner_c1 true vm_c1).fst = Except.ok () :=
  verify_secure_runner_success runner_c1 true vm_c1
    { segment_index := 0, offset := 0 } 0 rfl rfl
    (fun _ p hp => by
      rcases List.mem_singleton.mp hp with rfl
      show (1 : Nat) < USIZE_MOD - 1
      norm_num [USIZE_MOD])
    (fun _ p hp sz hsz => by
      rcases List.mem_singleton.mp hp with rfl
      have h1 : (some 1 : Option Nat) = some sz := hsz
      injection h1 with h1
      show sz ≤ 1
      omega)
    (fun sz hsz => by
      have h1 : (some 1 : Option Nat) = some sz := hsz
      injection h1 with h1
      show sz ≤ 1
      omega)
    (Or.inl rfl)
    (fun p hp => by
      rcases List.mem_singleton.mp hp with rfl
      rfl)

/-- C5: when the program base is set to a representable segment index and the
builtin bound step passes (or the flag is off), a program segment recorded
size exceeding the program length makes `verify_secure_runner` fail with
`OutOfBoundsProgramSegmentAccess`; the check runs for either value of the
bound flag. -/
theorem program_out_of_bounds_fails
    (runner : CairoRunner) (verify_builtins : Bool) (vm : VirtualMachine)
    (rel : Relocatable) (pidx sz : Nat)
    (hbase : runner.program_base = some rel)
    (hidx : to_usize rel.segment_index = some pidx)
    (hb : verify_builtins = false ∨
      builtin_bounds_check vm.memory.data runner.builtin_segments_info =
        Except.ok ())
    (hsz : (vm.memory.data.get? pidx).map List.length = some sz)
    (hlt : runner.program.data.length < sz) :
    (verify_secure_runner runner verify_builtins vm).fst =
      Except.error VirtualMachineError.OutOfBoundsProgramSegmentAccess := by
  have hb' : builtin_bounds_check vm.memory.data
      (if verify_builtins then runner.get_builtin_segments_info else []) =
        Except.ok () := by
    rcases hb with hfalse | hok
    · rw [hfalse]; rfl
    · cases verify_builtins
      · rfl
      · simpa [CairoRunner.get_builtin_segments_info] using hok
  have hge : option_ge ((vm.memory.data.get? pidx).map List.length)
      (some (runner.program.data.length + 1)) = true := by
    rw [hsz, option_ge_some_some]
    simp only [decide_eq_true_eq]
    omega
  simp only [verify_secure_runner_fst, hb', hbase, Option.some_bind, hidx, hge,
    if_true]

/-- Concrete configuration for the C5 witness: program base at segment 0 and
an empty program. -/
def runner_c5 : CairoRunner :=
  { program_base := some { segment_index := 0, offset := 0 }
  , program := { data := [] }
  , builtin_segments_info := [] }

/-- Concrete machine for the C5 witness: the program segment holds one cell,
so its recorded size 1 exceeds the program length 0. -/
def vm_c5 : VirtualMachine :=
  { memory := { data := [[some (MaybeRelocatable.int 9)]], temp_data := [] }
  , builtin_runners := [] }

/-- Witness for C5 with the bound flag off. -/
theorem program_out_of_bounds_fails_witness :
    (verify_secure_runner runner_c5 false vm_c5).fst =
      Except.error VirtualMachineError.OutOfBoundsProgramSegmentAccess :=
  program_out_of_bounds_fails runner_c5 false vm_c5
    { segment_index := 0, offset := 0 } 0 1 rfl rfl (Or.inl rfl) rfl (by decide)

/-- C3: with the builtin bound step passing (or the flag off), the program
base resolving, the program bound satisfied, and at least one temporary
segment allocated, a real cell holding a negative-segment-index address that
is first in ascending (segment index, offset) scan order among such cells
makes `verify_secure_runner` fail with `InvalidMemoryValueTemporaryAddress`
carrying exactly that address. -/
theorem temporary_address_leak_detected
    (runner : CairoRunner) (verify_builtins : Bool) (vm : VirtualMachine)
    (rel : Relocatable) (pidx : Nat) (s o : Nat) (addr : Relocatable)
    (hbase : runner.program_base = some rel)
    (hidx : to_usize rel.segment_index = some pidx)
    (hb : verify_builtins = false ∨
      builtin_bounds_check vm.memory.data runner.builtin_segments_info =
        Except.ok ())
    (hprog : ∀ sz, (vm.memory.data.get? pidx).map List.length = some sz →
      sz ≤ runner.program.data.length)
    (htemp : vm.memory.temp_data ≠ [])
    (hcell : cell_value vm.memory.data s o =
      some (some (MaybeRelocatable.relocatableValue addr)))
    (hneg : addr.segment_index < 0)
    (hfirst : ∀ s' o' c, (s' < s ∨ (s' = s ∧ o' < o)) →
      cell_value vm.memory.data s' o' = some c → is_temporary_cell c = false) :
    (verify_secure_runner runner verify_builtins vm).fst =
      Except.error (VirtualMachineError.InvalidMemoryValueTemporaryAddress addr) := by
  have hb' : builtin_bounds_check vm.memory.data
      (if verify_builtins then runner.get_builtin_segments_info else []) =
        Except.ok () := by
    rcases hb with hfalse | hok
    · rw [hfalse]; rfl
    · cases verify_builtins
      · rfl
      · simpa [CairoRunner.get_builtin_segments_info] using hok
  have hpsize : option_ge ((vm.memory.data.get? pidx).map List.length)
      (some (runner.program.data.length + 1)) = false := by
    rcases hsz : (vm.memory.data.get? pidx).map List.length with _ | sz
    · rfl
    · rw [option_ge_some_some]
      have := hprog sz hsz
      simp only [decide_eq_false_iff_not]
      omega
  have hfind : find_temporary_address vm.memory.data.flatten = some addr :=
    flatten_find_first vm.memory.data s o addr hcell hneg hfirst
  have hne : vm.memory.temp_data.isEmpty = false := by
    rcases h : vm.memory.temp_data with _ | ⟨a, l⟩
    · exact absurd h htemp
    · rfl
  have htc : (if vm.memory.temp_data.isEmpty then none
      else find_temporary_address vm.memory.data.flatten) = some addr := by
    rw [hne]
    simp only [Bool.false_eq_true, if_false]
    exact hfind
  simp only [verify_secure_runner_fst, hb', hbase, Option.some_bind, hidx, hpsize,
    Bool.false_eq_true, if_false, htc]

/-- Concrete configuration for the C3 witness. -/
def runner_c3 : CairoRunner :=
  { program_base := some { segment_index := 0, offset := 0 }
  , program := { data := [] }
  , builtin_segments_info := [] }

/-- Concrete machine for the C3 witness: segment 1 holds a real address at
offset 0 and a temporary address `(-3, 2)` at offset 1; one (empty) temporary
segment exists. -/
def vm_c3 : VirtualMachine :=
  { memory :=
    { data := [[],
        [some (MaybeRelocatable.relocatableValue { segment_index := 3, offset := 0 }),
         some (MaybeRelocatable.relocatableValue { segment_index := -3, offset := 2 })]]
    , temp_data := [[]] }
  , builtin_runners := [] }

/-- Witness for C3: the first offending cell in scan order is at segment 1,
offset 1, and the error carries its address `(-3, 2)`. -/
theorem temporary_address_leak_detected_witness :
    (verify_secure_runner runner_c3 false vm_c3).fst =
      Except.error (VirtualMachineError.InvalidMemoryValueTemporaryAddress
        { segment_index := -3, offset := 2 }) :=
  temporary_address_leak_detected runner_c3 false vm_c3
    { segment_index := 0, offset := 0 } 0 1 1 { segment_index := -3, offset := 2 }
    rfl rfl (Or.inl rfl)
    (fun sz hsz => by
      have h0 : (some 0 : Option Nat) = some sz := hsz
      injection h0 with h0
      omega)
    (by decide)
    rfl
    (by norm_num)
    (by
      intro s' o' c hlt hc
      rcases hlt with hs | ⟨hs, ho⟩
      · have hs0 : s' = 0 := by omega
        subst hs0
        have hnone : cell_value vm_c3.memory.data 0 o' = none := by
          cases o' <;> rfl
        rw [hnone] at hc
        exact Option.noConfusion hc
      · subst hs
        have ho0 : o' = 0 := by omega
        subst ho0
        have h0 : (some (some (MaybeRelocatable.relocatableValue
            { segment_index := 3, offset := 0 })) :
              Option (Option MaybeRelocatable)) = some c := hc
        injection h0 with h0
        rw [h0.symm]
        rfl)

/-- C6: when no temporary segment was ever allocated, the temporary-address
scan is skipped: even with a real cell holding a negative-segment-index
address, `verify_secure_runner` does not fail because of that cell and
returns success provided every other check passes (the builtin bound step
passing is stated as the check's own outcome). -/
theorem temporary_address_blind_spot
    (runner : CairoRunner) (verify_builtins : Bool) (vm : VirtualMachine)
    (rel : Relocatable) (pidx : Nat) (s o : Nat) (addr : Relocatable)
    (hbase : runner.program_base = some rel)
    (hidx : to_usize rel.segment_index = some pidx)
    (hb : verify_builtins = false ∨
      builtin_bounds_check vm.memory.data runner.builtin_segments_info =
        Except.ok ())
    (hprog : ∀ sz, (vm.memory.data.get? pidx).map List.length = some sz →
      sz ≤ runner.program.data.length)
    (htemp : vm.memory.temp_data = [])
    (hcell : cell_value vm.memory.data s o =
      some (some (MaybeRelocatable.relocatableValue addr)))
    (hneg : addr.segment_index < 0)
    (haudit : ∀ p ∈ vm.builtin_runners,
      p.2.run_security_checks vm.memory = Except.ok ()) :
    (verify_secure_runner runner verify_builtins vm).fst = Except.ok () := by
  have hb' : builtin_bounds_check vm.memory.data
      (if verify_builtins then runner.get_builtin_segments_info else []) =
        Except.ok () := by
    rcases hb with hfalse | hok
    · rw [hfalse]; rfl
    · cases verify_builtins
      · rfl
      · simpa [CairoRunner.get_builtin_segments_info] using hok
  have hpsize : option_ge ((vm.memory.data.get? pidx).map List.length)
      (some (runner.program.data.length + 1)) = false := by
    rcases hsz : (vm.memory.data.get? pidx).map List.length with _ | sz
    · rfl
    · rw [option_ge_some_some]
      have := hprog sz hsz
      simp only [decide_eq_false_iff_not]
      omega
  have htc : (if vm.memory.temp_data.isEmpty then none
      else find_temporary_address vm.memory.data.flatten) =
        (none : Option Relocatable) := by
    rw [htemp]; rfl
  simp only [verify_secure_runner_fst, hb', hbase, Option.some_bind, hidx, hpsize,
    Bool.false_eq_true, if_false, htc]
  exact run_security_checks_loop_ok vm.memory vm.builtin_runners haudit

/-- Concrete configuration for the C6 witness: program base at segment 0 and
a one-word program. -/
def runner_c6 : CairoRunner :=
  { program_base := some { segment_index := 0, offset := 0 }
  , program := { data := [MaybeRelocatable.int 0] }
  , builtin_segments_info := [] }

/-- Concrete machine for the C6 witness: the single real cell holds the
temporary address `(-3, 2)` but the temporary family is empty. -/
def vm_c6 : VirtualMachine :=
  { memory :=
    { data := [[some (MaybeRelocatable.relocatableValue
        { segment_index := -3, offset := 2 })]]
    , temp_data := [] }
  , builtin_runners := [] }

/-- Witness for C6: the offending address sits in real memory, yet the
verdict is success because no temporary segment was ever allocated. -/
theorem temporary_address_blind_spot_witness :
    (verify_secure_runner runner_c6 false vm_c6).fst = Except.ok () :=
  temporary_address_blind_spot runner_c6 false vm_c6
    { segment_index := 0, offset := 0 } 0 0 0 { segment_index := -3, offset := 2 }
    rfl rfl
    (Or.inl rfl)
    (fun sz hsz => by
      have h1 : (some 1 : Option Nat) = some sz := hsz
      injection h1 with h1
      show sz ≤ 1
      omega)
    rfl
    rfl
    (by norm_num)
    (fun p hp => absurd hp (List.not_mem_nil p))

end CairoRs
